import Mathlib

/-
Shallow embedding of the async-ECS access broker in src/lib.rs
(crate bevy_malek_async).

Correspondence with the source:
* `ASYNC_ECS_WORLD_ACCESS : OnceLock<Mutex<Option<UnsafeWorldCell>>>` is the
  single process-wide gate slot; it is modelled by `GlobalState.gate`, which
  records the `WorldId` of the world whose exclusive handle is installed
  (`none` = closed, `some wid` = open for world `wid`).
* `ASYNC_ECS_WAKER_LIST : OnceLock<Mutex<HashMap<WorldId, Vec<Waker>>>>` is
  modelled by `GlobalState.wakerList`, an association list from world id to
  the ordered list of registered wakers (push appends at the end, as
  `Vec::push` does).
* `AsyncEcsCounter(Arc<Mutex<Vec<WaitGroup>>>)` is a per-world ECS resource;
  only the length of the `Vec<WaitGroup>` is observable (each entry is one
  live clone of the checkpoint's wait group), so it is modelled by
  `GlobalState.counters`, an association list from world id to that length.
  `Vec::pop` on it is length-minus-one, a no-op on the empty vector.
* World data reachable through the handle (what a closure reads and what the
  deferred `SystemState::apply` mutates) is abstracted to one `Nat` per world
  in `GlobalState.worlds`; a closure is a function `WState → Out × WState`
  giving its return value and the world state after its deferred apply.
* Rust panics (`unwrap` on a missing closure, a missing `AsyncEcsCounter`
  resource, or an already-empty gate slot at close) are modelled by `Option`:
  `none` is a panic.
-/

namespace BevyMalekAsync

abbrev WorldId := Nat

abbrev Waker := Nat

/-- Abstract per-world state visible to closures through the system params. -/
abbrev WState := Nat

/-- First-match lookup in an association list, as `HashMap::get`. -/
def lookupA {α : Type} : List (Nat × α) → Nat → Option α
  | [], _ => none
  | (k, v) :: rest, key => if k = key then some v else lookupA rest key

/-- Remove every entry with the given key, as `HashMap::remove`. -/
def removeA {α : Type} : List (Nat × α) → Nat → List (Nat × α)
  | [], _ => []
  | (k, v) :: rest, key =>
      if k = key then removeA rest key else (k, v) :: removeA rest key

/-- Insert-or-update a key, as `HashMap::insert` / updating through
`get_mut`. Only `lookupA`-observable behaviour matters. -/
def setA {α : Type} (m : List (Nat × α)) (k : Nat) (v : α) : List (Nat × α) :=
  (k, v) :: removeA m k

/-- The future `SystemParamThing<P, Func, Out>`: field 2 is the
`Option<Func>` closure (taken on completion), field 3 the `WorldId` the
future was created with. -/
structure Future (Out : Type) where
  closure : Option (WState → Out × WState)
  worldId : WorldId

/-- The process-wide state of the broker plus the worlds it serves. -/
structure GlobalState where
  gate : Option WorldId
  wakerList : List (WorldId × List Waker)
  counters : List (WorldId × Nat)
  worlds : List (WorldId × WState)
deriving DecidableEq

/-- Observable events of one `SystemParamThing::poll`, in program order. -/
inductive PollEvent where
  | runClosure (wid : WorldId)
  | applyDeferred (wid : WorldId)
  | popTicket (wid : WorldId)
  | registerWaker (wid : WorldId)
deriving DecidableEq

/-- Result of one poll: `result = some out` is `Poll::Ready(out)`,
`result = none` is `Poll::Pending`; `fut` is the future afterwards. -/
structure PollOut (Out : Type) where
  result : Option Out
  state : GlobalState
  trace : List PollEvent
  fut : Future Out

/-- `SystemParamThing::poll` (src/lib.rs lines 44-80).

If the gate slot holds a world cell (gate open), the closure is taken and run
against THAT world — the poll reads `wc.world().id()` into a variable but
never compares it with the future's own `worldId` — its deferred mutations
are applied, then one ticket is popped from that world's counter, and
`Ready(out)` is returned. If the slot is empty (gate closed), the waker is
appended under the future's own `worldId` and `Pending` is returned.
`none` models a panic (missing closure / missing counter resource / missing
world). -/
def poll {Out : Type} (st : GlobalState) (fut : Future Out) (wk : Waker) :
    Option (PollOut Out) :=
  match st.gate with
  | some gw =>
      match fut.closure, lookupA st.worlds gw, lookupA st.counters gw with
      | some f, some w, some c =>
          let out := (f w).1
          let w2 := (f w).2
          let st1 : GlobalState := { st with worlds := setA st.worlds gw w2 }
          let st2 : GlobalState :=
            { st1 with counters := setA st1.counters gw (c - 1) }
          some { result := some out
                 state := st2
                 trace := [PollEvent.runClosure gw, PollEvent.applyDeferred gw,
                           PollEvent.popTicket gw]
                 fut := { fut with closure := none } }
      | _, _, _ => none
  | none =>
      let cur := (lookupA st.wakerList fut.worldId).getD []
      some { result := none
             state := { st with
                          wakerList := setA st.wakerList fut.worldId
                                        (cur ++ [wk]) }
             trace := [PollEvent.registerWaker fut.worldId]
             fut := fut }

/-- `async_access` (src/lib.rs lines 19-26): wraps the closure and world id
into a `SystemParamThing` and awaits it. -/
def async_access {Out : Type} (wid : WorldId) (f : WState → Out × WState) :
    Future Out :=
  { closure := some f, worldId := wid }

/-- Observable events of the checkpoint driver, in program order. -/
inductive DriverEvent where
  | openGate (wid : WorldId)
  | drain (wid : WorldId) (n : Nat)
  | resetCounter (wid : WorldId) (n : Nat)
  | wake (w : Waker)
  | waitBarrier (wid : WorldId)
  | closeGate (wid : WorldId)
deriving DecidableEq

/-- State after the non-blocking first half of `run_async_ecs_accesses`:
gate opened, waiter list drained, counter reset, wakers woken. -/
structure DriverSetup where
  state : GlobalState
  drained : List Waker
  hadEntry : Bool
  trace : List DriverEvent
deriving DecidableEq

/-- First half of `run_async_ecs_accesses` (src/lib.rs lines 83-117): install
the world's cell in the gate slot, `remove` this world's waker list from the
map (if present), clear the ticket vector and push one wait-group clone per
drained waker, then wake every drained waker in list order. `none` models
the `unwrap` panic when the world lacks the `AsyncEcsCounter` resource. -/
def driverSetup (st : GlobalState) (wid : WorldId) : Option DriverSetup :=
  let st1 : GlobalState := { st with gate := some wid }
  match lookupA st1.wakerList wid with
  | none =>
      some { state := st1, drained := [], hadEntry := false
             trace := [DriverEvent.openGate wid] }
  | some ws =>
      let st2 : GlobalState := { st1 with wakerList := removeA st1.wakerList wid }
      match lookupA st2.counters wid with
      | none => none
      | some _ =>
          let st3 : GlobalState :=
            { st2 with counters := setA st2.counters wid ws.length }
          some { state := st3, drained := ws, hadEntry := true
                 trace := [DriverEvent.openGate wid,
                           DriverEvent.drain wid ws.length,
                           DriverEvent.resetCounter wid ws.length]
                         ++ ws.map DriverEvent.wake }

/-- Whether the driver executes `wg.wait()` (src/lib.rs lines 118-120): only
when a waker entry existed and `num_wakers > 0`. -/
def performsWait (d : DriverSetup) : Bool :=
  d.hadEntry && decide (0 < d.drained.length)

/-- Whether `wg.wait()` has been (or is trivially) satisfied in state `st`:
the wait returns exactly when every wait-group clone pushed at this
checkpoint has been dropped, i.e. when the world's ticket vector is empty;
when no wait is performed it is trivially satisfied. -/
def waitCompletes (d : DriverSetup) (st : GlobalState) (wid : WorldId) : Bool :=
  !performsWait d || ((lookupA st.counters wid).getD 0 == 0)

/-- Last statement of `run_async_ecs_accesses` (src/lib.rs lines 122-128):
`take().unwrap()` on the gate slot; `none` models the panic when the slot is
already empty. -/
def driverClose (st : GlobalState) : Option GlobalState :=
  match st.gate with
  | some _ => some { st with gate := none }
  | none => none

/-- Run a sequence of future polls (a schedule of the executor threads
during the checkpoint window), threading the global state and collecting
each poll's result. `none` models a panic in some poll. -/
def runPolls {Out : Type} (st : GlobalState) :
    List (Future Out × Waker) → Option (GlobalState × List (Option Out))
  | [] => some (st, [])
  | (f, wk) :: rest =>
      (poll st f wk).bind fun r =>
        (runPolls r.state rest).map fun q => (q.1, r.result :: q.2)

/-- One whole `run_async_ecs_accesses` invocation on world `wid`, with `ps`
the polls the executor threads perform during the window: setup, the polls,
the barrier wait, then closing the gate. The result is the final state and
the driver's event trace; `none` means the driver never returns (a panic, or
`wg.wait()` blocking forever because tickets remain). -/
def driverRun {Out : Type} (st : GlobalState) (wid : WorldId)
    (ps : List (Future Out × Waker)) : Option (GlobalState × List DriverEvent) :=
  match driverSetup st wid with
  | none => none
  | some d =>
      match runPolls d.state ps with
      | none => none
      | some (st2, _) =>
          if waitCompletes d st2 wid then
            match driverClose st2 with
            | none => none
            | some st3 =>
                some (st3, d.trace
                  ++ (if performsWait d then [DriverEvent.waitBarrier wid] else [])
                  ++ [DriverEvent.closeGate wid])
          else none

theorem lookupA_removeA_self {α : Type} (m : List (Nat × α)) (k : Nat) :
    lookupA (removeA m k) k = none := by
  induction m with
  | nil => rfl
  | cons p rest ih =>
      obtain ⟨a, v⟩ := p
      by_cases h : a = k
      · simp [removeA, h, ih]
      · simp [removeA, lookupA, h, ih]

theorem lookupA_removeA_ne {α : Type} (m : List (Nat × α)) {k j : Nat}
    (h : j ≠ k) : lookupA (removeA m k) j = lookupA m j := by
  induction m with
  | nil => rfl
  | cons p rest ih =>
      obtain ⟨a, v⟩ := p
      by_cases ha : a = k
      · subst ha
        simp [removeA, lookupA, Ne.symm h, ih]
      · simp only [removeA, if_neg ha, lookupA, ih]

theorem lookupA_setA_self {α : Type} (m : List (Nat × α)) (k : Nat) (v : α) :
    lookupA (setA m k v) k = some v := by
  simp [setA, lookupA]

theorem lookupA_setA_ne {α : Type} (m : List (Nat × α)) {k j : Nat} (v : α)
    (h : j ≠ k) : lookupA (setA m k v) j = lookupA m j := by
  simp only [setA, lookupA, if_neg (Ne.symm h)]
  exact lookupA_removeA_ne m h

theorem poll_gate {Out : Type} {st : GlobalState} {fut : Future Out}
    {wk : Waker} {r : PollOut Out} (h : poll st fut wk = some r) :
    r.state.gate = st.gate := by
  cases hg : st.gate with
  | none =>
      simp only [poll, hg, Option.some.injEq] at h
      subst h
      rfl
  | some gw =>
      cases hcl : fut.closure with
      | none => simp [poll, hg, hcl] at h
      | some f =>
          cases hw : lookupA st.worlds gw with
          | none => simp [poll, hg, hcl, hw] at h
          | some w =>
              cases hc : lookupA st.counters gw with
              | none => simp [poll, hg, hcl, hw, hc] at h
              | some c =>
                  simp only [poll, hg, hcl, hw, hc, Option.some.injEq] at h
                  subst h
                  rfl

theorem runPolls_gate {Out : Type} :
    ∀ (ps : List (Future Out × Waker)) (st st2 : GlobalState)
      (outs : List (Option Out)),
      runPolls st ps = some (st2, outs) → st2.gate = st.gate := by
  intro ps
  induction ps with
  | nil =>
      intro st st2 outs h
      simp only [runPolls, Option.some.injEq, Prod.mk.injEq] at h
      rw [← h.1]
  | cons p rest ih =>
      intro st st2 outs h
      obtain ⟨f, wk⟩ := p
      cases hp : poll st f wk with
      | none => rw [runPolls, hp] at h; simp at h
      | some r =>
          rw [runPolls, hp] at h
          simp only [Option.some_bind] at h
          cases hr : runPolls r.state rest with
          | none => rw [hr] at h; simp at h
          | some q =>
              obtain ⟨st3, outs3⟩ := q
              rw [hr] at h
              simp only [Option.map_some', Option.some.injEq,
                Prod.mk.injEq] at h
              obtain ⟨h1, _⟩ := h
              rw [← h1]
              rw [ih r.state st3 outs3 hr, poll_gate hp]

theorem poll_open_eq {Out : Type} {st : GlobalState} {fut : Future Out}
    (wk : Waker) {gw : WorldId} {f : WState → Out × WState} {w : WState}
    {c : Nat} (hg : st.gate = some gw) (hcl : fut.closure = some f)
    (hw : lookupA st.worlds gw = some w)
    (hc : lookupA st.counters gw = some c) :
    poll st fut wk = some
      { result := some (f w).1
        state := { st with
                   worlds := setA st.worlds gw (f w).2
                   counters := setA st.counters gw (c - 1) }
        trace := [PollEvent.runClosure gw, PollEvent.applyDeferred gw,
                  PollEvent.popTicket gw]
        fut := { fut with closure := none } } := by
  simp only [poll, hg, hcl, hw, hc]

theorem poll_closed_eq {Out : Type} {st : GlobalState} (fut : Future Out)
    (wk : Waker) (hg : st.gate = none) :
    poll st fut wk = some
      { result := none
        state := { st with
                   wakerList := setA st.wakerList fut.worldId
                     ((lookupA st.wakerList fut.worldId).getD [] ++ [wk]) }
        trace := [PollEvent.registerWaker fut.worldId]
        fut := fut } := by
  simp only [poll, hg]

theorem poll_open_counters {Out : Type} {st : GlobalState} {fut : Future Out}
    {wk : Waker} {r : PollOut Out} {gw : WorldId} {c : Nat}
    (hg : st.gate = some gw) (hc : lookupA st.counters gw = some c)
    (h : poll st fut wk = some r) :
    lookupA r.state.counters gw = some (c - 1) := by
  cases hcl : fut.closure with
  | none => simp [poll, hg, hcl] at h
  | some f =>
      cases hw : lookupA st.worlds gw with
      | none => simp [poll, hg, hcl, hw] at h
      | some w =>
          simp only [poll, hg, hcl, hw, hc, Option.some.injEq] at h
          subst h
          exact lookupA_setA_self _ _ _

theorem runPolls_open_counter {Out : Type} (gw : WorldId) :
    ∀ (ps : List (Future Out × Waker)) (st : GlobalState) (c : Nat)
      (st2 : GlobalState) (outs : List (Option Out)),
      st.gate = some gw →
      lookupA st.counters gw = some c →
      runPolls st ps = some (st2, outs) →
      lookupA st2.counters gw = some (c - ps.length) := by
  intro ps
  induction ps with
  | nil =>
      intro st c st2 outs hg hc h
      simp only [runPolls, Option.some.injEq, Prod.mk.injEq] at h
      rw [← h.1]
      simpa using hc
  | cons p rest ih =>
      intro st c st2 outs hg hc h
      obtain ⟨fu, wk⟩ := p
      cases hp : poll st fu wk with
      | none => rw [runPolls, hp] at h; simp at h
      | some r =>
          rw [runPolls, hp] at h
          simp only [Option.some_bind] at h
          cases hr : runPolls r.state rest with
          | none => rw [hr] at h; simp at h
          | some q =>
              obtain ⟨st3, outs3⟩ := q
              rw [hr] at h
              simp only [Option.map_some', Option.some.injEq,
                Prod.mk.injEq] at h
              obtain ⟨h1, _⟩ := h
              rw [← h1]
              have hgr : r.state.gate = some gw := by rw [poll_gate hp, hg]
              have hcr := poll_open_counters hg hc hp
              have := ih r.state (c - 1) st3 outs3 hgr hcr hr
              have harith : c - 1 - rest.length = c - (rest.length + 1) := by
                omega
              rw [harith] at this
              simpa using this

theorem poll_closed_parts {Out : Type} {st : GlobalState} {fut : Future Out}
    {wk : Waker} {r : PollOut Out} (hg : st.gate = none)
    (h : poll st fut wk = some r) :
    r.state.wakerList = setA st.wakerList fut.worldId
        ((lookupA st.wakerList fut.worldId).getD [] ++ [wk]) ∧
    r.state.counters = st.counters ∧ r.state.worlds = st.worlds ∧
    r.result = none ∧ r.fut = fut := by
  simp only [poll, hg, Option.some.injEq] at h
  subst h
  exact ⟨rfl, rfl, rfl, rfl, rfl⟩

theorem runPolls_closed_registry {Out : Type} (v : WorldId) :
    ∀ (ps : List (Future Out × Waker)) (st st2 : GlobalState)
      (outs : List (Option Out)),
      st.gate = none →
      (∀ p ∈ ps, (p.1).worldId = v) →
      runPolls st ps = some (st2, outs) →
      st2.gate = none ∧ st2.counters = st.counters ∧
      (lookupA st2.wakerList v).getD [] =
        (lookupA st.wakerList v).getD [] ++ ps.map Prod.snd := by
  intro ps
  induction ps with
  | nil =>
      intro st st2 outs hg _ h
      simp only [runPolls, Option.some.injEq, Prod.mk.injEq] at h
      rw [← h.1]
      simp [hg]
  | cons p rest ih =>
      intro st st2 outs hg hv h
      obtain ⟨fu, wk⟩ := p
      have hvf : fu.worldId = v := hv (fu, wk) (List.mem_cons_self _ _)
      cases hp : poll st fu wk with
      | none => rw [runPolls, hp] at h; simp at h
      | some r =>
          rw [runPolls, hp] at h
          simp only [Option.some_bind] at h
          cases hr : runPolls r.state rest with
          | none => rw [hr] at h; simp at h
          | some q =>
              obtain ⟨st3, outs3⟩ := q
              rw [hr] at h
              simp only [Option.map_some', Option.some.injEq,
                Prod.mk.injEq] at h
              obtain ⟨h1, _⟩ := h
              rw [← h1]
              obtain ⟨hwl, hcn, _, _, _⟩ := poll_closed_parts hg hp
              have hgr : r.state.gate = none := by rw [poll_gate hp, hg]
              have hrest := ih r.state st3 outs3 hgr
                (fun p hp2 => hv p (List.mem_cons_of_mem _ hp2)) hr
              refine ⟨hrest.1, by rw [hrest.2.1, hcn], ?_⟩
              rw [hrest.2.2, hwl, hvf, lookupA_setA_self]
              simp

theorem driverSetup_entry (st : GlobalState) (wid : WorldId) (ws : List Waker)
    (c : Nat) (hw : lookupA st.wakerList wid = some ws)
    (hc : lookupA st.counters wid = some c) :
    driverSetup st wid = some
      { state := { st with
                   gate := some wid
                   wakerList := removeA st.wakerList wid
                   counters := setA st.counters wid ws.length }
        drained := ws
        hadEntry := true
        trace := [DriverEvent.openGate wid, DriverEvent.drain wid ws.length,
                  DriverEvent.resetCounter wid ws.length]
                 ++ ws.map DriverEvent.wake } := by
  simp only [driverSetup, hw, hc]

theorem driverRun_blocked {Out : Type} {st : GlobalState} {wid : WorldId}
    {d : DriverSetup} {ps : List (Future Out × Waker)} {st2 : GlobalState}
    {outs : List (Option Out)} (hds : driverSetup st wid = some d)
    (hrp : runPolls d.state ps = some (st2, outs))
    (hwc : waitCompletes d st2 wid = false) :
    driverRun st wid ps = none := by
  simp only [driverRun, hds, hrp, hwc, Bool.false_eq_true, if_false]

theorem driverSetup_noentry (st : GlobalState) (wid : WorldId)
    (hw : lookupA st.wakerList wid = none) :
    driverSetup st wid = some
      { state := { st with gate := some wid }
        drained := []
        hadEntry := false
        trace := [DriverEvent.openGate wid] } := by
  simp only [driverSetup, hw]

/-- Claim C4: when an Access Future is polled while the gate is open, it
runs its closure synchronously against the exclusive handle (the open
world's state), applies the deferred mutations to that world before the
ticket decrement (trace order: run, apply, pop; the gate slot is unchanged
by the poll, so the gate cannot have closed in between), then pops one
ticket from the counter and returns Ready with exactly the closure's return
value. -/
theorem C4_open_poll_runs_closure {Out : Type} (st : GlobalState)
    (fut : Future Out) (wk : Waker) (gw : WorldId)
    (f : WState → Out × WState) (w : WState) (c : Nat)
    (hg : st.gate = some gw) (hcl : fut.closure = some f)
    (hw : lookupA st.worlds gw = some w)
    (hc : lookupA st.counters gw = some c) :
    ∃ r : PollOut Out, poll st fut wk = some r ∧
      r.result = some (f w).1 ∧
      lookupA r.state.worlds gw = some (f w).2 ∧
      lookupA r.state.counters gw = some (c - 1) ∧
      r.trace = [PollEvent.runClosure gw, PollEvent.applyDeferred gw,
                 PollEvent.popTicket gw] ∧
      r.state.gate = st.gate := by
  refine ⟨_, poll_open_eq wk hg hcl hw hc, rfl, ?_, ?_, rfl, rfl⟩
  · exact lookupA_setA_self _ _ _
  · exact lookupA_setA_self _ _ _

def c4State : GlobalState :=
  { gate := some 0
    wakerList := []
    counters := [(0, 3)]
    worlds := [(0, 5)] }

theorem C4_witness :
    ∃ r : PollOut Nat,
      poll c4State (async_access 0 fun w => (w * 2, w + 1)) 9 = some r ∧
      r.result = some 10 ∧
      lookupA r.state.worlds 0 = some 6 ∧
      lookupA r.state.counters 0 = some 2 ∧
      r.trace = [PollEvent.runClosure 0, PollEvent.applyDeferred 0,
                 PollEvent.popTicket 0] ∧
      r.state.gate = c4State.gate :=
  C4_open_poll_runs_closure c4State (async_access 0 fun w => (w * 2, w + 1))
    9 0 (fun w => (w * 2, w + 1)) 5 3 rfl rfl rfl rfl

/-- Claim C5: polling an Access Future while the gate is closed registers
the waker under the future's own world id (appended to that world's list)
and returns Pending without running the closure (the closure, every world's
state and every counter are untouched); the gate state is re-checked on
every poll, so a further (spurious) poll with the gate still closed again
returns Pending. -/
theorem C5_closed_poll_registers {Out : Type} (st : GlobalState)
    (fut : Future Out) (wk wk2 : Waker) (hg : st.gate = none) :
    ∃ r : PollOut Out, poll st fut wk = some r ∧
      r.result = none ∧
      r.fut = fut ∧
      (lookupA r.state.wakerList fut.worldId).getD [] =
        (lookupA st.wakerList fut.worldId).getD [] ++ [wk] ∧
      r.state.counters = st.counters ∧
      r.state.worlds = st.worlds ∧
      r.state.gate = none ∧
      r.trace = [PollEvent.registerWaker fut.worldId] ∧
      ∃ r2 : PollOut Out, poll r.state r.fut wk2 = some r2 ∧
        r2.result = none := by
  refine ⟨_, poll_closed_eq fut wk hg, rfl, rfl, ?_, rfl, rfl, hg, rfl, ?_⟩
  · rw [lookupA_setA_self]
    rfl
  · exact ⟨_, poll_closed_eq fut wk2 hg, rfl⟩

def c5State : GlobalState :=
  { gate := none
    wakerList := [(2, [4])]
    counters := [(2, 0)]
    worlds := [(2, 1)] }

theorem C5_witness :
    ∃ r : PollOut Nat,
      poll c5State (async_access 2 fun w => (w, w)) 8 = some r ∧
      r.result = none ∧
      r.fut = async_access 2 (fun w => (w, w)) ∧
      (lookupA r.state.wakerList 2).getD [] =
        (lookupA c5State.wakerList 2).getD [] ++ [8] ∧
      r.state.counters = c5State.counters ∧
      r.state.worlds = c5State.worlds ∧
      r.state.gate = none ∧
      r.trace = [PollEvent.registerWaker 2] ∧
      ∃ r2 : PollOut Nat, poll r.state r.fut 8 = some r2 ∧
        r2.result = none :=
  C5_closed_poll_registers c5State (async_access 2 fun w => (w, w)) 8 8 rfl

/-- Claim C9: the broker introduces no error condition of its own and never
alters the closure's result: for any result type `Out` (including one that
encodes errors), awaiting `async_access` yields exactly the value the
closure returned for the world state it was handed. -/
theorem C9_result_passthrough (Out : Type) (st : GlobalState)
    (wid : WorldId) (f : WState → Out × WState) (wk : Waker) (gw : WorldId)
    (w : WState) (c : Nat) (hg : st.gate = some gw)
    (hw : lookupA st.worlds gw = some w)
    (hc : lookupA st.counters gw = some c) :
    ∃ r : PollOut Out, poll st (async_access wid f) wk = some r ∧
      r.result = some (f w).1 :=
  ⟨_, poll_open_eq wk hg rfl hw hc, rfl⟩

def c9State : GlobalState :=
  { gate := some 0
    wakerList := []
    counters := [(0, 1)]
    worlds := [(0, 5)] }

theorem C9_witness :
    ∃ r : PollOut (Except String Nat),
      poll c9State
        (async_access 0 fun w => (Except.error "boom", w)) 1 = some r ∧
      r.result = some (Except.error "boom") :=
  C9_result_passthrough (Except String Nat) c9State 0
    (fun w => (Except.error "boom", w)) 1 0 5 1 rfl rfl rfl

def c1State : GlobalState :=
  { gate := some 0
    wakerList := []
    counters := [(0, 2), (1, 5)]
    worlds := [(0, 10), (1, 20)] }

def c1Future : Future Nat := async_access 1 fun w => (w + 100, w + 1)

/-- Claim C1 is violated by the code: with only world 0's checkpoint window
open (gate = world 0), a future created with world 1's id is polled and —
because `SystemParamThing::poll` computes `wc.world().id()` but never
compares it with the future's own `WorldId` — runs its closure against
world 0's state (it reads 10, world 1 holds 20), mutates world 0, and pops
a ticket from world 0's counter (2 becomes 1), while world 1's counter and
state are left alone. -/
theorem C1_cross_world_violation :
    ∃ r : PollOut Nat, poll c1State c1Future 0 = some r ∧
      r.result = some 110 ∧
      lookupA r.state.worlds 0 = some 11 ∧
      lookupA r.state.counters 0 = some 1 ∧
      lookupA r.state.worlds 1 = some 20 ∧
      lookupA r.state.counters 1 = some 5 ∧
      r.trace = [PollEvent.runClosure 0, PollEvent.applyDeferred 0,
                 PollEvent.popTicket 0] := by
  refine ⟨_, poll_open_eq 0 rfl rfl rfl rfl, rfl, ?_, ?_, ?_, ?_, rfl⟩
  · decide
  · decide
  · decide
  · decide

def c2State : GlobalState :=
  { gate := some 0
    wakerList := []
    counters := [(0, 3)]
    worlds := [(0, 7)] }

/-- Claim C2 is false on the code: a request whose first poll happens while
world 0's checkpoint window is open (three tickets outstanding from that
window's drained waiters) is not deferred — it returns Ready within the
same window and pops one of the window's tickets (3 becomes 2), registering
nothing for the next checkpoint. -/
theorem C2_counterexample :
    ∃ r : PollOut Nat,
      poll c2State (async_access 0 fun w => (w, w)) 4 = some r ∧
      (r.result).isSome = true ∧
      lookupA r.state.counters 0 = some 2 ∧
      r.state.wakerList = [] := by
  refine ⟨_, poll_open_eq 4 rfl rfl rfl rfl, rfl, ?_, rfl⟩
  decide

/-- Claim C2 as amended: an access request that first polls while a
checkpoint window is open is executed immediately within that same window —
its closure runs against the open world's handle and one of that window's
tickets is popped (when any remain) — and nothing is registered for a later
checkpoint; only a poll that finds the gate closed defers the request by
registering a waker. -/
theorem C2_amended_runs_in_window {Out : Type} (st : GlobalState)
    (fut : Future Out) (wk : Waker) (gw : WorldId)
    (f : WState → Out × WState) (w : WState) (c : Nat)
    (hg : st.gate = some gw) (hcl : fut.closure = some f)
    (hw : lookupA st.worlds gw = some w)
    (hc : lookupA st.counters gw = some c) :
    ∃ r : PollOut Out, poll st fut wk = some r ∧
      (r.result).isSome = true ∧
      lookupA r.state.counters gw = some (c - 1) ∧
      r.state.wakerList = st.wakerList := by
  refine ⟨_, poll_open_eq wk hg hcl hw hc, rfl, ?_, rfl⟩
  exact lookupA_setA_self _ _ _

theorem C2_amended_witness :
    ∃ r : PollOut Nat,
      poll c2State (async_access 0 fun w => (w + 1, w)) 4 = some r ∧
      (r.result).isSome = true ∧
      lookupA r.state.counters 0 = some 2 ∧
      r.state.wakerList = c2State.wakerList :=
  C2_amended_runs_in_window c2State (async_access 0 fun w => (w + 1, w))
    4 0 (fun w => (w + 1, w)) 7 3 rfl rfl rfl rfl

/-- Claim C3: one checkpoint-driver invocation on world `wid` (whose waiter
registry holds list `ws` and whose `AsyncEcsCounter` resource exists)
performs, in order: open the gate for `wid`; drain `wid`'s waiter list of
size N (the registry entry is removed, so later registrations go to a fresh
list); reset the ticket counter to N; wake the N drained wakers in
registration order. Then, whatever polls the executors run during the
window, the driver's wait is satisfied exactly when the ticket counter has
reached zero, and only then does the driver close the gate and return, the
trace being open, drain, reset, the N wakes, the barrier wait, close — with
the gate slot empty afterwards. -/
theorem C3_driver_phases (st : GlobalState) (wid : WorldId) (ws : List Waker)
    (c : Nat) (hw : lookupA st.wakerList wid = some ws)
    (hc : lookupA st.counters wid = some c) :
    ∃ d : DriverSetup, driverSetup st wid = some d ∧
      d.trace = [DriverEvent.openGate wid, DriverEvent.drain wid ws.length,
                 DriverEvent.resetCounter wid ws.length]
                ++ ws.map DriverEvent.wake ∧
      d.drained = ws ∧
      d.state.gate = some wid ∧
      lookupA d.state.wakerList wid = none ∧
      lookupA d.state.counters wid = some ws.length ∧
      (∀ (Out : Type) (ps : List (Future Out × Waker)) (st2 : GlobalState)
         (outs : List (Option Out)),
         runPolls d.state ps = some (st2, outs) →
         (performsWait d = true →
            (waitCompletes d st2 wid = true ↔
              (lookupA st2.counters wid).getD 0 = 0)) ∧
         (waitCompletes d st2 wid = true →
            driverRun st wid ps = some ({ st2 with gate := none },
              ([DriverEvent.openGate wid, DriverEvent.drain wid ws.length,
                DriverEvent.resetCounter wid ws.length]
               ++ ws.map DriverEvent.wake)
              ++ (if performsWait d then [DriverEvent.waitBarrier wid]
                  else [])
              ++ [DriverEvent.closeGate wid]) ∧
            ({ st2 with gate := none } : GlobalState).gate = none)) := by
  have hds := driverSetup_entry st wid ws c hw hc
  refine ⟨_, hds, rfl, rfl, rfl, lookupA_removeA_self _ _,
    lookupA_setA_self _ _ _, ?_⟩
  intro Out ps st2 outs hrp
  constructor
  · intro hperf
    have hlen : 0 < ws.length := by
      simpa [performsWait] using hperf
    simp [waitCompletes, performsWait, hlen]
  · intro hwait
    have hg2 : st2.gate = some wid := by
      rw [runPolls_gate ps _ st2 outs hrp]
    refine ⟨?_, rfl⟩
    simp only [driverRun, hds, hrp, hwait, if_true, driverClose, hg2]

def c3State : GlobalState :=
  { gate := none
    wakerList := [(0, [7])]
    counters := [(0, 9)]
    worlds := [(0, 4)] }

theorem C3_witness :
    ∃ d : DriverSetup, driverSetup c3State 0 = some d ∧
      d.trace = [DriverEvent.openGate 0, DriverEvent.drain 0 1,
                 DriverEvent.resetCounter 0 1]
                ++ [7].map DriverEvent.wake ∧
      d.drained = [7] ∧
      d.state.gate = some 0 ∧
      lookupA d.state.wakerList 0 = none ∧
      lookupA d.state.counters 0 = some 1 ∧
      (∀ (Out : Type) (ps : List (Future Out × Waker)) (st2 : GlobalState)
         (outs : List (Option Out)),
         runPolls d.state ps = some (st2, outs) →
         (performsWait d = true →
            (waitCompletes d st2 0 = true ↔
              (lookupA st2.counters 0).getD 0 = 0)) ∧
         (waitCompletes d st2 0 = true →
            driverRun c3State 0 ps = some ({ st2 with gate := none },
              ([DriverEvent.openGate 0, DriverEvent.drain 0 1,
                DriverEvent.resetCounter 0 1]
               ++ [7].map DriverEvent.wake)
              ++ (if performsWait d then [DriverEvent.waitBarrier 0]
                  else [])
              ++ [DriverEvent.closeGate 0]) ∧
            ({ st2 with gate := none } : GlobalState).gate = none)) :=
  C3_driver_phases c3State 0 [7] 9 (by decide) (by decide)

/-- Claim C6: after the checkpoint setup the ticket count is exactly the
number N of waiters drained at this checkpoint (whatever the counter held
before was cleared), and with `m ≤ N` poll completions observed during the
window the count is `N - m`, so the driver's wait is satisfied exactly when
`m = N` completions have been observed. -/
theorem C6_ticket_accounting (st : GlobalState) (wid : WorldId)
    (ws : List Waker) (c : Nat)
    (hw : lookupA st.wakerList wid = some ws)
    (hc : lookupA st.counters wid = some c) :
    ∃ d : DriverSetup, driverSetup st wid = some d ∧
      lookupA d.state.counters wid = some ws.length ∧
      (∀ (Out : Type) (ps : List (Future Out × Waker)) (st2 : GlobalState)
         (outs : List (Option Out)),
         runPolls d.state ps = some (st2, outs) →
         ps.length ≤ ws.length →
         lookupA st2.counters wid = some (ws.length - ps.length) ∧
         (waitCompletes d st2 wid = true ↔ ps.length = ws.length)) := by
  have hds := driverSetup_entry st wid ws c hw hc
  refine ⟨_, hds, lookupA_setA_self _ _ _, ?_⟩
  intro Out ps st2 outs hrp hle
  have hcnt := runPolls_open_counter wid ps _ ws.length st2 outs rfl
    (lookupA_setA_self _ _ _) hrp
  refine ⟨hcnt, ?_⟩
  have hgetd : (lookupA st2.counters wid).getD 0 = ws.length - ps.length := by
    rw [hcnt]
    rfl
  simp only [waitCompletes, performsWait, hgetd, Bool.or_eq_true,
    Bool.not_eq_true', Bool.true_and, decide_eq_false_iff_not,
    Nat.not_lt, Nat.le_zero, beq_iff_eq]
  omega

def c6State : GlobalState :=
  { gate := none
    wakerList := [(3, [1, 2])]
    counters := [(3, 7)]
    worlds := [(3, 0)] }

theorem C6_witness :
    ∃ d : DriverSetup, driverSetup c6State 3 = some d ∧
      lookupA d.state.counters 3 = some 2 ∧
      (∀ (Out : Type) (ps : List (Future Out × Waker)) (st2 : GlobalState)
         (outs : List (Option Out)),
         runPolls d.state ps = some (st2, outs) →
         ps.length ≤ 2 →
         lookupA st2.counters 3 = some (2 - ps.length) ∧
         (waitCompletes d st2 3 = true ↔ ps.length = 2)) :=
  C6_ticket_accounting c6State 3 [1, 2] 7 (by decide) (by decide)

/-- Claim C7: a checkpoint whose waiter registry has no entry for the world
— or an entry holding the empty list — performs no barrier wait at all: the
driver opens the gate, (in the empty-entry case drains nothing and resets
the counter to zero), closes the gate and returns, and its trace contains
no wait-barrier event. -/
theorem C7_empty_checkpoint_no_wait (st : GlobalState) (wid : WorldId)
    (c : Nat) (hc : lookupA st.counters wid = some c)
    (h : lookupA st.wakerList wid = none ∨
         lookupA st.wakerList wid = some []) :
    ∃ d : DriverSetup, driverSetup st wid = some d ∧
      performsWait d = false ∧
      (∀ st2 : GlobalState, waitCompletes d st2 wid = true) ∧
      d.state.gate = some wid ∧
      ∃ (st3 : GlobalState) (tr : List DriverEvent),
        driverRun st wid ([] : List (Future Nat × Waker)) = some (st3, tr) ∧
        st3.gate = none ∧ DriverEvent.waitBarrier wid ∉ tr := by
  cases h with
  | inl hnone =>
      have hds := driverSetup_noentry st wid hnone
      refine ⟨_, hds, rfl, fun st2 => rfl, rfl, ?_⟩
      refine ⟨{ st with gate := none },
        [DriverEvent.openGate wid, DriverEvent.closeGate wid], ?_, rfl, ?_⟩
      · simp [driverRun, hds, runPolls, waitCompletes, performsWait,
          driverClose]
      · simp
  | inr hempty =>
      have hds := driverSetup_entry st wid [] c hempty hc
      refine ⟨_, hds, rfl, fun st2 => rfl, rfl, ?_⟩
      refine ⟨{ st with
                gate := none
                wakerList := removeA st.wakerList wid
                counters := setA st.counters wid 0 },
        [DriverEvent.openGate wid, DriverEvent.drain wid 0,
         DriverEvent.resetCounter wid 0, DriverEvent.closeGate wid],
        ?_, rfl, ?_⟩
      · simp [driverRun, hds, runPolls, waitCompletes, performsWait,
          driverClose]
      · simp

def c7State : GlobalState :=
  { gate := none
    wakerList := []
    counters := [(0, 6)]
    worlds := [(0, 0)] }

theorem C7_witness :
    ∃ d : DriverSetup, driverSetup c7State 0 = some d ∧
      performsWait d = false ∧
      (∀ st2 : GlobalState, waitCompletes d st2 0 = true) ∧
      d.state.gate = some 0 ∧
      ∃ (st3 : GlobalState) (tr : List DriverEvent),
        driverRun c7State 0 ([] : List (Future Nat × Waker)) = some (st3, tr) ∧
        st3.gate = none ∧ DriverEvent.waitBarrier 0 ∉ tr :=
  C7_empty_checkpoint_no_wait c7State 0 6 (by decide) (Or.inl (by decide))

/-- Claim C8: once a checkpoint has drained N > 0 waiters, the driver's
completion wait is satisfied only in states whose ticket count is zero; if
only m < N completions ever happen (a woken continuation was dropped or
aborted without popping its ticket, and nothing else decrements the
counter), the wait condition is false and the driver never returns
(`driverRun` produces no result). -/
theorem C8_lost_ticket_blocks_forever (st : GlobalState) (wid : WorldId)
    (ws : List Waker) (c : Nat)
    (hw : lookupA st.wakerList wid = some ws)
    (hc : lookupA st.counters wid = some c) (hn : 0 < ws.length) :
    ∃ d : DriverSetup, driverSetup st wid = some d ∧
      (∀ st2 : GlobalState, waitCompletes d st2 wid = true →
         (lookupA st2.counters wid).getD 0 = 0) ∧
      (∀ (Out : Type) (ps : List (Future Out × Waker)) (st2 : GlobalState)
         (outs : List (Option Out)),
         runPolls d.state ps = some (st2, outs) →
         ps.length < ws.length →
         waitCompletes d st2 wid = false ∧
         driverRun st wid ps = none) := by
  have hds := driverSetup_entry st wid ws c hw hc
  refine ⟨_, hds, ?_, ?_⟩
  · intro st2 hwc
    simpa [waitCompletes, performsWait, hn] using hwc
  · intro Out ps st2 outs hrp hlt
    have hcnt := runPolls_open_counter wid ps _ ws.length st2 outs rfl
      (lookupA_setA_self _ _ _) hrp
    have hgetd : (lookupA st2.counters wid).getD 0 = ws.length - ps.length := by
      rw [hcnt]
      rfl
    have hwc : waitCompletes
        { state := { st with
                     gate := some wid
                     wakerList := removeA st.wakerList wid
                     counters := setA st.counters wid ws.length }
          drained := ws
          hadEntry := true
          trace := [DriverEvent.openGate wid, DriverEvent.drain wid ws.length,
                    DriverEvent.resetCounter wid ws.length]
                   ++ ws.map DriverEvent.wake } st2 wid = false := by
      simp only [waitCompletes, performsWait, hgetd, Bool.or_eq_false_iff,
        Bool.not_eq_false', Bool.true_and, decide_eq_true_eq,
        beq_eq_false_iff_ne, ne_eq]
      exact ⟨hn, by omega⟩
    exact ⟨hwc, driverRun_blocked hds hrp hwc⟩

def c8State : GlobalState :=
  { gate := none
    wakerList := [(1, [9, 9])]
    counters := [(1, 0)]
    worlds := [(1, 0)] }

theorem C8_witness :
    ∃ d : DriverSetup, driverSetup c8State 1 = some d ∧
      (∀ st2 : GlobalState, waitCompletes d st2 1 = true →
         (lookupA st2.counters 1).getD 0 = 0) ∧
      (∀ (Out : Type) (ps : List (Future Out × Waker)) (st2 : GlobalState)
         (outs : List (Option Out)),
         runPolls d.state ps = some (st2, outs) →
         ps.length < 2 →
         waitCompletes d st2 1 = false ∧
         driverRun c8State 1 ps = none) :=
  C8_lost_ticket_blocks_forever c8State 1 [9, 9] 0 (by decide) (by decide)
    (by decide)

/-- Claim C10: polling one future k times while the gate is closed appends
k fresh wakers — no deduplication — to its world's waiter list, so the next
checkpoint drains all of them and issues one ticket per entry (the counter
is reset to the grown list's length); yet any single resolving poll pops at
most one ticket from the counter. -/
theorem C10_duplicate_registration {Out : Type} (st : GlobalState)
    (fut : Future Out) (wks : List Waker) (st2 : GlobalState)
    (outs : List (Option Out)) (c : Nat)
    (hg : st.gate = none)
    (hc : lookupA st.counters fut.worldId = some c)
    (hrp : runPolls st (wks.map fun wk => (fut, wk)) = some (st2, outs))
    (hne : wks ≠ []) :
    (lookupA st2.wakerList fut.worldId).getD [] =
      (lookupA st.wakerList fut.worldId).getD [] ++ wks ∧
    (∃ d : DriverSetup, driverSetup st2 fut.worldId = some d ∧
       lookupA d.state.counters fut.worldId =
         some ((lookupA st.wakerList fut.worldId).getD [] ++ wks).length) ∧
    (∀ (st3 : GlobalState) (gw : WorldId) (c3 : Nat) (wk : Waker)
       (r : PollOut Out),
       st3.gate = some gw → lookupA st3.counters gw = some c3 →
       poll st3 fut wk = some r →
       c3 - (lookupA r.state.counters gw).getD 0 ≤ 1) := by
  have hv : ∀ p ∈ (wks.map fun wk => (fut, wk)), (p.1).worldId = fut.worldId := by
    intro p hp
    obtain ⟨wk, _, rfl⟩ := List.mem_map.mp hp
    rfl
  have hreg := runPolls_closed_registry fut.worldId
    (wks.map fun wk => (fut, wk)) st st2 outs hg hv hrp
  have hsnd : (wks.map fun wk => (fut, wk)).map Prod.snd = wks := by
    simp
  rw [hsnd] at hreg
  refine ⟨hreg.2.2, ?_, ?_⟩
  · have hnonempty :
        (lookupA st.wakerList fut.worldId).getD [] ++ wks ≠ [] := by
      simp [hne]
    cases hlk : lookupA st2.wakerList fut.worldId with
    | none =>
        exfalso
        apply hnonempty
        rw [← hreg.2.2, hlk]
        rfl
    | some l =>
        have hl : l = (lookupA st.wakerList fut.worldId).getD [] ++ wks := by
          rw [← hreg.2.2, hlk]
          rfl
        have hc2 : lookupA st2.counters fut.worldId = some c := by
          rw [hreg.2.1, hc]
        have hds := driverSetup_entry st2 fut.worldId l c hlk hc2
        exact ⟨_, hds, by rw [lookupA_setA_self, hl]⟩
  · intro st3 gw c3 wk r hg3 hc3 hp
    have := poll_open_counters hg3 hc3 hp
    rw [this]
    simp only [Option.getD_some]
    omega

def c10State : GlobalState :=
  { gate := none
    wakerList := []
    counters := [(0, 5)]
    worlds := [(0, 2)] }

def c10Future : Future Nat := async_access 0 fun w => (w, w)

def c10After : GlobalState :=
  { gate := none
    wakerList := [(0, [6, 6])]
    counters := [(0, 5)]
    worlds := [(0, 2)] }

theorem C10_witness :
    (lookupA c10After.wakerList 0).getD [] =
      (lookupA c10State.wakerList 0).getD [] ++ [6, 6] ∧
    (∃ d : DriverSetup, driverSetup c10After 0 = some d ∧
       lookupA d.state.counters 0 =
         some ((lookupA c10State.wakerList 0).getD [] ++ [6, 6]).length) ∧
    (∀ (st3 : GlobalState) (gw : WorldId) (c3 : Nat) (wk : Waker)
       (r : PollOut Nat),
       st3.gate = some gw → lookupA st3.counters gw = some c3 →
       poll st3 c10Future wk = some r →
       c3 - (lookupA r.state.counters gw).getD 0 ≤ 1) :=
  C10_duplicate_registration c10State c10Future [6, 6] c10After
    [none, none] 5 rfl rfl rfl (by decide)

end BevyMalekAsync
